import Mathlib

/-!
Verification development for the deep-research agent repository.

The definitions below are a shallow embedding of the TypeScript source:
* the session-state record and its per-field merge policy (src state module,
  `ResearchStateAnnotation` reducers), modelled as `ResearchState`,
  `StateUpdate` and `applyUpdate`;
* the routing function after human review (`src/graph.ts`,
  `routeAfterHumanReview`) and the graph's unconditional linear edges
  (`buildResearchGraph`);
* the human-review node (`humanReviewNode`), the search node (`searchNode`),
  the scraper node and `scrapeUrls`, the retrieval node and
  `retrieveFromVectorDB`, the synthesis citation map (`buildCitationMap`),
  and the chunking function (`chunkText`).

External services (LLM, Tavily search, page fetch, ChromaDB) are passed in
as explicit oracles, matching the spec's "external collaborators" contracts.
Floating-point relevance scores are modelled as rationals.
-/

namespace MindSearch

/-- Sub-query priority, from the `SubQuerySchema` enum. -/
inductive Priority
  | high
  | medium
  | low
deriving DecidableEq

/-- A decomposed sub-query (`SubQuerySchema`). -/
structure SubQuery where
  id : String
  query : String
  rationale : String
  priority : Priority
deriving DecidableEq

/-- A web search result (`SearchResultSchema`); `score` is optional. -/
structure SearchResult where
  url : String
  title : String
  snippet : String
  score : Option ℚ
  publishedDate : Option String
deriving DecidableEq

/-- A scraped page (`ScrapedContentSchema`); `error` is set on failure. -/
structure ScrapedContent where
  url : String
  title : String
  content : String
  scrapedAt : String
  wordCount : Nat
  error : Option String
deriving DecidableEq

/-- Metadata attached to a stored/retrieved chunk. -/
structure ChunkMetadata where
  url : String
  title : String
  subQueryId : String
  chunkIndex : Nat
deriving DecidableEq

/-- A chunk returned by similarity retrieval (`RetrievedChunkSchema`). -/
structure RetrievedChunk where
  content : String
  metadata : ChunkMetadata
  relevanceScore : ℚ
deriving DecidableEq

/-- A citation entry (`CitationSchema`). -/
structure Citation where
  id : Nat
  url : String
  title : String
  quote : Option String := none
deriving DecidableEq

/-- A report section (`ReportSectionSchema`). -/
structure ReportSection where
  title : String
  content : String
  citations : List Nat
deriving DecidableEq

/-- Report metadata (`ResearchReportSchema.metadata`). -/
structure ReportMetadata where
  totalSources : Nat
  subQueriesAnswered : Nat
  generatedAt : String
  iterationCount : Nat
deriving DecidableEq

/-- A structured research report (`ResearchReportSchema`). -/
structure ResearchReport where
  title : String
  executiveSummary : String
  sections : List ReportSection
  conclusions : String
  citations : List Citation
  metadata : ReportMetadata
deriving DecidableEq

/-- Human review feedback (`HumanFeedbackSchema`). -/
structure HumanFeedback where
  approved : Bool
  feedback : Option String
  requestedChanges : Option (List String) := none
  timestamp : String
deriving DecidableEq

/-- The current-stage marker (`NodeStatusSchema`). -/
inductive NodeStatus
  | idle
  | reasoning
  | searching
  | scraping
  | storing
  | retrieving
  | synthesizing
  | awaitingHuman
  | complete
  | error
deriving DecidableEq

/-- The session state threading through every stage (the fields of the
LangGraph state root; the framework-internal `messages` channel carries
opaque chat messages and is not modelled). -/
structure ResearchState where
  researchQuestion : String
  subQueries : List SubQuery
  searchResults : List SearchResult
  scrapedContent : List ScrapedContent
  storedChunkIds : List String
  retrievedChunks : List RetrievedChunk
  draftReport : Option ResearchReport
  humanFeedback : Option HumanFeedback
  currentNode : NodeStatus
  iterationCount : Nat
  errors : List String
  finalReport : Option ResearchReport
deriving DecidableEq

/-- A stage's partial state update: `none` means the stage did not write
the channel, `some v` means it returned `v` for that channel. -/
structure StateUpdate where
  researchQuestion : Option String := none
  subQueries : Option (List SubQuery) := none
  searchResults : Option (List SearchResult) := none
  scrapedContent : Option (List ScrapedContent) := none
  storedChunkIds : Option (List String) := none
  retrievedChunks : Option (List RetrievedChunk) := none
  draftReport : Option (Option ResearchReport) := none
  humanFeedback : Option (Option HumanFeedback) := none
  currentNode : Option NodeStatus := none
  iterationCount : Option Nat := none
  errors : Option (List String) := none
  finalReport : Option (Option ResearchReport) := none
deriving DecidableEq

/-- `[...new Set([...curr, ...next])]`: deduplicate keeping the first
occurrence, in insertion order. -/
def dedupFirst (l : List String) : List String :=
  l.foldl (fun acc x => if x ∈ acc then acc else acc ++ [x]) []

/-- Apply a partial update with each channel's declared reducer:
replace for the question, sub-queries, retrieved chunks, draft/final
report, human feedback, stage marker and iteration counter; append for
search results, scraped content and errors; append-deduplicated (via a
`Set`) for stored chunk ids. A channel the update does not write keeps
its current value. -/
def applyUpdate (s : ResearchState) (u : StateUpdate) : ResearchState where
  researchQuestion := u.researchQuestion.getD s.researchQuestion
  subQueries := u.subQueries.getD s.subQueries
  searchResults :=
    match u.searchResults with
    | none => s.searchResults
    | some next => s.searchResults ++ next
  scrapedContent :=
    match u.scrapedContent with
    | none => s.scrapedContent
    | some next => s.scrapedContent ++ next
  storedChunkIds :=
    match u.storedChunkIds with
    | none => s.storedChunkIds
    | some next => dedupFirst (s.storedChunkIds ++ next)
  retrievedChunks := u.retrievedChunks.getD s.retrievedChunks
  draftReport := u.draftReport.getD s.draftReport
  humanFeedback := u.humanFeedback.getD s.humanFeedback
  currentNode := u.currentNode.getD s.currentNode
  iterationCount := u.iterationCount.getD s.iterationCount
  errors :=
    match u.errors with
    | none => s.errors
    | some next => s.errors ++ next
  finalReport := u.finalReport.getD s.finalReport

/-- The state at session start: the channel defaults of the state root. -/
def initialState (question : String) : ResearchState where
  researchQuestion := question
  subQueries := []
  searchResults := []
  scrapedContent := []
  storedChunkIds := []
  retrievedChunks := []
  draftReport := none
  humanFeedback := none
  currentNode := .idle
  iterationCount := 0
  errors := []
  finalReport := none

/-- Default iteration cap (`MAX_ITERATIONS = parseInt(env ?? "3")`). -/
def MAX_ITERATIONS : Nat := 3

/-- Target of the conditional edge after human review:
loop back to reasoning, or terminate (`"__end__"`). -/
inductive Route
  | reasoning
  | finish
deriving DecidableEq

/-- `routeAfterHumanReview` from the graph module: terminate when the
feedback is approved or absent, or when the iteration cap is reached;
otherwise loop back to reasoning. -/
def routeAfterHumanReview (maxIterations : Nat) (s : ResearchState) : Route :=
  match s.humanFeedback with
  | none => .finish
  | some fb =>
    if fb.approved then .finish
    else if maxIterations ≤ s.iterationCount then .finish
    else .reasoning

/-- The reviewer's resolved choice at the prompt. `Q` exits the process and
an unrecognized answer re-prompts without a state update, so only the two
state-changing choices are modelled. -/
inductive ReviewChoice
  | approve
  | reject (feedbackText : String) (changes : List String)
deriving DecidableEq

/-- The human-review node: guard on a missing draft, then either approve
(stamp the draft as final) or reject (record feedback, clear retrieved
chunks and the draft, head back to reasoning). Timestamps are opaque. -/
def humanReviewNode (s : ResearchState) (choice : ReviewChoice) : StateUpdate :=
  match s.draftReport with
  | none =>
    { errors := some ["No draft report available for review"],
      currentNode := some .error }
  | some draft =>
    match choice with
    | .approve =>
      { humanFeedback := some (some
          { approved := true, feedback := some "Report approved", timestamp := "" }),
        currentNode := some .complete,
        finalReport := some (some draft) }
    | .reject fb changes =>
      { humanFeedback := some (some
          { approved := false,
            feedback := some (if fb = "" then "Please improve the report" else fb),
            requestedChanges := some changes,
            timestamp := "" }),
        currentNode := some .reasoning,
        retrievedChunks := some [],
        draftReport := some none }

/-- The driver's final-report selection (`state.finalReport ?? state.draftReport`). -/
def mainFinalReport (s : ResearchState) : Option ResearchReport :=
  match s.finalReport with
  | some r => some r
  | none => s.draftReport

/-- Numeric rank of a priority, from the search node's comparator
(`order = \x7b high: 0, medium: 1, low: 2 \x7d`). -/
def priorityRank : Priority → Nat
  | .high => 0
  | .medium => 1
  | .low => 2

/-- The search node's sort order: high before medium before low. -/
def subQueryLE (a b : SubQuery) : Prop :=
  priorityRank a.priority ≤ priorityRank b.priority

instance : DecidableRel subQueryLE := fun a b =>
  inferInstanceAs (Decidable (priorityRank a.priority ≤ priorityRank b.priority))

instance : IsTotal SubQuery subQueryLE :=
  ⟨fun a b => Nat.le_total (priorityRank a.priority) (priorityRank b.priority)⟩

instance : IsTrans SubQuery subQueryLE :=
  ⟨fun _ _ _ hab hbc => Nat.le_trans hab hbc⟩

/-- One sub-query's turn inside the search loop: on a failed external call
the sub-query is skipped (the failure is only written to the console);
on success the results whose url is already known are filtered out and the
cumulative url set is extended. The accumulator is the pair
(known urls, new results gathered so far). -/
def searchStep (oracle : String → Except String (List SearchResult))
    (acc : List String × List SearchResult) (sq : SubQuery) :
    List String × List SearchResult :=
  match oracle sq.query with
  | .error _ => acc
  | .ok results =>
    let newResults := results.filter (fun r => decide (r.url ∉ acc.1))
    (acc.1 ++ newResults.map (fun r => r.url), acc.2 ++ newResults)

/-- The search node: stage-level guard on an empty sub-query list, then
one external search per sub-query in priority order, deduplicating by url
against results accumulated in any earlier iteration. The external search
service is the `oracle` argument. -/
def searchNode (s : ResearchState)
    (oracle : String → Except String (List SearchResult)) : StateUpdate :=
  if s.subQueries = [] then
    { errors := some ["No sub-queries available for search"],
      currentNode := some .error }
  else
    let prioritized := List.insertionSort subQueryLE s.subQueries
    let res := prioritized.foldl (searchStep oracle)
      (s.searchResults.map (fun r => r.url), [])
    { searchResults := some res.2, currentNode := some .scraping }

/-- Batched scraping loop (`concurrency = 3`): each batch of three urls is
fetched, its results appended in order, then the next batch starts. The
page fetcher is the `fetch_` oracle; a failed fetch yields a record whose
`error` field is set. -/
def scrapeLoop (fetch_ : String → ScrapedContent) : List String → List ScrapedContent
  | [] => []
  | u :: us => ((u :: us).take 3).map fetch_ ++ scrapeLoop fetch_ ((u :: us).drop 3)
termination_by urls => urls.length
decreasing_by simp [List.length_drop]; omega

/-- `scrapeUrls`: scrape all urls in batches then drop every failed scrape
(an `error` present or a word count of at most 50). -/
def scrapeUrls (fetch_ : String → ScrapedContent) (urls : List String) :
    List ScrapedContent :=
  (scrapeLoop fetch_ urls).filter (fun r => decide (r.error = none ∧ 50 < r.wordCount))

/-- The scraper node's sort order: descending Tavily score (`score ?? 0`). -/
def searchResultGE (a b : SearchResult) : Prop :=
  b.score.getD 0 ≤ a.score.getD 0

instance : DecidableRel searchResultGE := fun a b =>
  inferInstanceAs (Decidable (b.score.getD 0 ≤ a.score.getD 0))

instance : IsTotal SearchResult searchResultGE :=
  ⟨fun a b => (le_total (b.score.getD 0) (a.score.getD 0)).imp id id⟩

instance : IsTrans SearchResult searchResultGE :=
  ⟨fun _ _ _ hab hbc => le_trans hbc hab⟩

/-- The scraper node: stage-level guard on an empty search-result list,
then scrape the top 15 not-yet-scraped urls by descending score and keep
only the successful pages. -/
def scraperNode (s : ResearchState) (fetch_ : String → ScrapedContent) : StateUpdate :=
  if s.searchResults = [] then
    { errors := some ["No search results to scrape"],
      currentNode := some .error }
  else
    let scrapedUrls := s.scrapedContent.map (fun c => c.url)
    let urlsToScrape :=
      ((((List.insertionSort searchResultGE s.searchResults).filter
        (fun r => decide (r.url ∉ scrapedUrls))).take 15).map (fun r => r.url))
    if urlsToScrape = [] then { currentNode := some .storing }
    else
      let newContent := scrapeUrls fetch_ urlsToScrape
      let successful := newContent.filter (fun c => decide (c.error = none ∧ 50 < c.wordCount))
      { scrapedContent := some successful, currentNode := some .storing }

/-- One similarity hit as the vector store returns it: the document text,
the L2 distance (absent hits default to distance 1), and the metadata. -/
structure QueryHit where
  doc : Option String
  distance : Option ℚ
  metadata : ChunkMetadata
deriving DecidableEq

/-- The embedding/similarity store behind `retrieveFromVectorDB`:
a document count and a query method; `none` models a response with no
document list for the query embedding. -/
structure VectorStore where
  count : Nat
  query : String → Nat → Option (List QueryHit)

/-- `retrieveFromVectorDB`: empty store short-circuits to no results;
otherwise request `min(topK, count)` hits, convert each L2 distance to
`max(0, 1 - distance/2)`, and keep only chunks longer than 20 characters. -/
def retrieveFromVectorDB (store : VectorStore) (q : String) (topK : Nat := 8) :
    List RetrievedChunk :=
  if store.count = 0 then []
  else
    match store.query q (min topK store.count) with
    | none => []
    | some hits =>
      (hits.map (fun h =>
        { content := h.doc.getD ""
          metadata := h.metadata
          relevanceScore := max 0 (1 - h.distance.getD 1 / 2) : RetrievedChunk })).filter
        (fun c => decide (20 < c.content.length))

/-- The retrieval node's dedup key: the trimmed first 100 characters. -/
def dedupKey (c : RetrievedChunk) : String :=
  (c.content.take 100).trim

/-- One chunk's turn in the retrieval dedup loop: keep it when its key is
unseen and its content is longer than 50 characters. The accumulator is
(seen keys, kept chunks). -/
def dedupStep (acc : List String × List RetrievedChunk) (c : RetrievedChunk) :
    List String × List RetrievedChunk :=
  if dedupKey c ∉ acc.1 ∧ 50 < c.content.length then
    (acc.1 ++ [dedupKey c], acc.2 ++ [c])
  else acc

/-- Flatten the per-query result lists and deduplicate by content prefix,
dropping short chunks, exactly as the retrieval node's inner loops do. -/
def dedupChunks (allResults : List (List RetrievedChunk)) : List RetrievedChunk :=
  (allResults.flatten.foldl dedupStep ([], [])).2

/-- Descending relevance order on retrieved chunks (the node's comparator
`b.relevanceScore - a.relevanceScore`). -/
def chunkGE (a b : RetrievedChunk) : Prop :=
  b.relevanceScore ≤ a.relevanceScore

instance : DecidableRel chunkGE := fun a b =>
  inferInstanceAs (Decidable (b.relevanceScore ≤ a.relevanceScore))

instance : IsTotal RetrievedChunk chunkGE :=
  ⟨fun a b => (le_total b.relevanceScore a.relevanceScore).imp id id⟩

instance : IsTrans RetrievedChunk chunkGE :=
  ⟨fun _ _ _ hab hbc => le_trans hbc hab⟩

/-- Dedup, sort by descending relevance, truncate to the global cap 20. -/
def retrievalSelect (allResults : List (List RetrievedChunk)) : List RetrievedChunk :=
  (List.insertionSort chunkGE (dedupChunks allResults)).take 20

/-- The retrieval node's query set: the research question, all
high-priority sub-queries, up to two medium-priority sub-queries, and the
feedback text on a revision pass (skipped when empty, the falsy check). -/
def retrievalQueries (s : ResearchState) : List String :=
  [s.researchQuestion]
    ++ (s.subQueries.filter (fun sq => decide (sq.priority = .high))).map (fun sq => sq.query)
    ++ ((s.subQueries.filter (fun sq => decide (sq.priority = .medium))).take 2).map
        (fun sq => sq.query)
    ++ (match s.humanFeedback with
        | some fb =>
          match fb.feedback with
          | some f => if f = "" then [] else [f]
          | none => []
        | none => [])

/-- Per-query result cap `TOP_K_PER_QUERY = 5`. -/
def TOP_K_PER_QUERY : Nat := 5

/-- The retrieval node: run every query against the store, dedup, rank and
truncate; the ranked list replaces the previous retrieval result. -/
def retrievalNode (s : ResearchState) (store : VectorStore) : StateUpdate :=
  let queries := retrievalQueries s
  let allResults := queries.map (fun q => retrieveFromVectorDB store q TOP_K_PER_QUERY)
  { retrievedChunks := some (retrievalSelect allResults),
    currentNode := some .synthesizing }

/-- One url's turn in the citation map: a fresh url is appended with the
next sequential id (`nextId` equals one plus the number already assigned),
a known url is skipped. -/
def citeFoldUrl (acc : List Citation) (u t : String) : List Citation :=
  if u ∈ acc.map (fun c => c.url) then acc
  else acc ++ [{ id := acc.length + 1, url := u, title := t }]

/-- Assign citation ids over a list keyed/titled by the given projections. -/
def citeList (key title : α → String) (acc : List Citation) (l : List α) :
    List Citation :=
  l.foldl (fun a x => citeFoldUrl a (key x) (title x)) acc

/-- `buildCitationMap`: number the retrieved chunks first by first
appearance of their source url, then the first 20 raw search results whose
urls are not already cited. -/
def buildCitationMap (s : ResearchState) : List Citation :=
  citeList (fun r => r.url) (fun r => r.title)
    (citeList (fun c => c.metadata.url) (fun c => c.metadata.title) [] s.retrievedChunks)
    (s.searchResults.take 20)

/-- Chunking window size (`CHUNK_SIZE`, default 1000 words). -/
def CHUNK_SIZE : Nat := 1000

/-- Chunking overlap (`CHUNK_OVERLAP`, default 200 words). -/
def CHUNK_OVERLAP : Nat := 200

/-- `words.join(" ")`, structurally recursive so that concrete instances
evaluate in the kernel. -/
def joinSpace : List String → String
  | [] => ""
  | [w] => w
  | w :: ws => w ++ " " ++ joinSpace ws

/-- JavaScript `String.prototype.trim`: drop leading and trailing
whitespace characters. -/
def jsTrim (s : String) : String :=
  String.mk (((s.data.dropWhile Char.isWhitespace).reverse.dropWhile
    Char.isWhitespace).reverse)

/-- The chunking loop of `chunkText`, on the word list produced by
`text.split(/\s+/)`: at index `i` take a window of `CHUNK_SIZE` words,
keep it when its joined text trims to more than 50 characters, stop after
the window that reaches the end of the list, else advance by
`CHUNK_SIZE - CHUNK_OVERLAP`. -/
def chunkTextAux (words : List String) (i : Nat) : List String :=
  if h : i < words.length then
    let chunk := joinSpace ((words.drop i).take CHUNK_SIZE)
    let rest :=
      if h2 : words.length ≤ i + CHUNK_SIZE then []
      else chunkTextAux words (i + (CHUNK_SIZE - CHUNK_OVERLAP))
    if 50 < (jsTrim chunk).length then chunk :: rest else rest
  else []
termination_by words.length - i
decreasing_by simp only [CHUNK_SIZE, CHUNK_OVERLAP] at *; omega

/-- `chunkText` on an already-split word list. -/
def chunkText (words : List String) : List String :=
  chunkTextAux words 0

/-- The window count the spec's formula predicts:
`ceil((W - O) / (S - O))` with `S = CHUNK_SIZE = 1000` and
`O = CHUNK_OVERLAP = 200` substituted. -/
def claimedWindowCount (W : Nat) : ℤ :=
  ⌈((W : ℚ) - 200) / 800⌉

/-- A single word of 60 characters: its one-window chunking is kept by the
50-character filter although the spec formula predicts zero windows. -/
def word60 : String :=
  String.mk (List.replicate 60 'a')

/-- 201 one-character words: one window, and the spec formula also
predicts one. -/
def words201 : List String :=
  List.replicate 201 "a"

/-- The graph's nodes (`buildResearchGraph`). -/
inductive GraphNode
  | reasoning
  | search
  | scraper
  | vectorStore
  | retrieval
  | synthesis
  | humanReview
deriving DecidableEq

/-- The unconditional linear edges added by `buildResearchGraph`; only
`human_review` has a conditional edge (`routeAfterHumanReview`). These
edges are followed regardless of the state produced by the node. -/
def linearSuccessor : GraphNode → Option GraphNode
  | .reasoning => some .search
  | .search => some .scraper
  | .scraper => some .vectorStore
  | .vectorStore => some .retrieval
  | .retrieval => some .synthesis
  | .synthesis => some .humanReview
  | .humanReview => none

/-- A concrete draft report used in concrete evaluations. -/
def exReport : ResearchReport where
  title := "Draft"
  executiveSummary := "summary"
  sections := []
  conclusions := "conclusions"
  citations := []
  metadata := { totalSources := 1, subQueriesAnswered := 1, generatedAt := "", iterationCount := 3 }

/-- A session that has a draft and sits at the iteration cap. -/
def c2State : ResearchState :=
  { initialState "q" with draftReport := some exReport, iterationCount := MAX_ITERATIONS }

/-- A session that has a draft below the iteration cap. -/
def c3State : ResearchState :=
  { initialState "q" with draftReport := some exReport, iterationCount := 1 }

/-- A concrete retrieved chunk from source url `u1`. -/
def exChunk : RetrievedChunk where
  content := "chunk content"
  metadata := { url := "u1", title := "T1", subQueryId := "sq", chunkIndex := 0 }
  relevanceScore := 1

/-- A concrete search result for url `u2`. -/
def exResult2 : SearchResult where
  url := "u2"
  title := "T2"
  snippet := ""
  score := some 1
  publishedDate := none

/-- A session with one retrieved chunk and one uncited search result. -/
def c5State : ResearchState :=
  { initialState "q" with retrievedChunks := [exChunk], searchResults := [exResult2] }

/-- An empty vector store. -/
def emptyStore : VectorStore where
  count := 0
  query := fun _ _ => none

/-- A high-priority sub-query whose search call will fail. -/
def sqA : SubQuery where
  id := "id-a"
  query := "qa"
  rationale := ""
  priority := .high

/-- A high-priority sub-query whose search call will succeed. -/
def sqB : SubQuery where
  id := "id-b"
  query := "qb"
  rationale := ""
  priority := .high

/-- The result returned for `sqB`. -/
def resB : SearchResult where
  url := "http-b"
  title := "B"
  snippet := ""
  score := some 1
  publishedDate := none

/-- A search oracle that fails on `qa` and succeeds on `qb`. -/
def c9Oracle : String → Except String (List SearchResult) :=
  fun q => if q = "qa" then .error "tavily unavailable" else .ok [resB]

/-- A session about to run the search stage with two sub-queries. -/
def c9State : ResearchState :=
  { initialState "q" with subQueries := [sqA, sqB] }

/-- A page fetcher that always fails. -/
def fetchFail : String → ScrapedContent :=
  fun u =>
    { url := u, title := "Scrape Error", content := "", scrapedAt := "",
      wordCount := 0, error := some "network error" }

-- ─────────────────────────────────────────────────────────────────────
-- Helper lemmas
-- ─────────────────────────────────────────────────────────────────────

theorem dedupFirst_go_nodup (l : List String) :
    ∀ acc : List String, acc.Nodup →
      (l.foldl (fun acc x => if x ∈ acc then acc else acc ++ [x]) acc).Nodup := by
  induction l with
  | nil => intro acc h; exact h
  | cons x xs ih =>
    intro acc h
    simp only [List.foldl_cons]
    by_cases hx : x ∈ acc
    · simpa [hx] using ih acc h
    · have h2 : (acc ++ [x]).Nodup := by
        simp [List.nodup_append, h, hx]
      simpa [hx] using ih _ h2

theorem dedupFirst_nodup (l : List String) : (dedupFirst l).Nodup :=
  dedupFirst_go_nodup l [] List.nodup_nil

theorem applyUpdate_storedChunkIds_nodup (s : ResearchState) (u : StateUpdate)
    (h : s.storedChunkIds.Nodup) : ((applyUpdate s u).storedChunkIds).Nodup := by
  unfold applyUpdate
  cases u.storedChunkIds <;> simp [h, dedupFirst_nodup]

theorem foldl_applyUpdate_nodup (us : List StateUpdate) :
    ∀ s : ResearchState, s.storedChunkIds.Nodup →
      ((us.foldl applyUpdate s).storedChunkIds).Nodup := by
  induction us with
  | nil => intro s h; exact h
  | cons u us ih =>
    intro s h
    exact ih _ (applyUpdate_storedChunkIds_nodup s u h)

-- ─────────────────────────────────────────────────────────────────────
-- Claim theorems
-- ─────────────────────────────────────────────────────────────────────

/-- C1: after human review the engine routes to termination if and only if
the feedback is approved, or no feedback exists, or the iteration count has
reached the configured maximum; in every other case it routes back to the
reasoning (decompose) stage. -/
theorem c1_route_after_human_review (m : Nat) (s : ResearchState) :
    (routeAfterHumanReview m s = .finish ↔
      (s.humanFeedback = none
        ∨ (∃ fb, s.humanFeedback = some fb ∧ fb.approved = true)
        ∨ m ≤ s.iterationCount)) ∧
    (routeAfterHumanReview m s = .reasoning ↔
      (∃ fb, s.humanFeedback = some fb ∧ fb.approved = false)
        ∧ s.iterationCount < m) := by
  unfold routeAfterHumanReview
  cases hfb : s.humanFeedback with
  | none => simp
  | some fb =>
    by_cases ha : fb.approved
    · simp [ha]
    · by_cases hm : m ≤ s.iterationCount
      · simp [ha, hm]
      · simp [ha, hm, Nat.lt_of_not_le hm]

/-- C2 (code bug evidence): when the reviewer rejects at the iteration cap
the router does terminate, but the reject handler has already cleared the
draft to `null` and nothing sets the final report, so the session ends with
no report at all instead of promoting the existing draft to final. -/
theorem c2_reject_at_cap_loses_draft :
    routeAfterHumanReview MAX_ITERATIONS
        (applyUpdate c2State (humanReviewNode c2State (.reject "needs work" []))) = .finish ∧
    (applyUpdate c2State (humanReviewNode c2State (.reject "needs work" []))).draftReport
        = none ∧
    (applyUpdate c2State (humanReviewNode c2State (.reject "needs work" []))).finalReport
        = none ∧
    mainFinalReport
        (applyUpdate c2State (humanReviewNode c2State (.reject "needs work" []))) = none := by
  decide

/-- C3: a rejection below the iteration cap routes back to reasoning with
retrieved chunks cleared to `[]` and the draft cleared to `null`, while the
accumulated search results and scraped pages are left unchanged. -/
theorem c3_reject_clears_and_preserves (s : ResearchState) (m : Nat) (r : ResearchReport)
    (fb : String) (changes : List String)
    (hdraft : s.draftReport = some r) (hiter : s.iterationCount < m) :
    (applyUpdate s (humanReviewNode s (.reject fb changes))).retrievedChunks = [] ∧
    (applyUpdate s (humanReviewNode s (.reject fb changes))).draftReport = none ∧
    (applyUpdate s (humanReviewNode s (.reject fb changes))).searchResults
        = s.searchResults ∧
    (applyUpdate s (humanReviewNode s (.reject fb changes))).scrapedContent
        = s.scrapedContent ∧
    routeAfterHumanReview m (applyUpdate s (humanReviewNode s (.reject fb changes)))
        = .reasoning := by
  have hnot : ¬ m ≤ s.iterationCount := Nat.not_le.mpr hiter
  simp [humanReviewNode, hdraft, applyUpdate, routeAfterHumanReview, hnot]

/-- Witness for C3 at a concrete rejected session below the cap. -/
theorem c3_reject_clears_and_preserves_witness :
    (applyUpdate c3State (humanReviewNode c3State (.reject "more detail" []))).retrievedChunks
        = [] ∧
    (applyUpdate c3State (humanReviewNode c3State (.reject "more detail" []))).draftReport
        = none ∧
    (applyUpdate c3State (humanReviewNode c3State (.reject "more detail" []))).searchResults
        = c3State.searchResults ∧
    (applyUpdate c3State (humanReviewNode c3State (.reject "more detail" []))).scrapedContent
        = c3State.scrapedContent ∧
    routeAfterHumanReview MAX_ITERATIONS
        (applyUpdate c3State (humanReviewNode c3State (.reject "more detail" [])))
        = .reasoning :=
  c3_reject_clears_and_preserves c3State MAX_ITERATIONS exReport "more detail" []
    rfl (by decide)

/-- C4 counterexample: the error log is a plain append, not a deduplicated
set — merging the same error string twice leaves a duplicate. -/
theorem c4_errors_not_deduplicated :
    (applyUpdate (applyUpdate (initialState "q") { errors := some ["e"] })
        { errors := some ["e"] }).errors = ["e", "e"] ∧
    ¬ ((applyUpdate (applyUpdate (initialState "q") { errors := some ["e"] })
        { errors := some ["e"] }).errors).Nodup := by
  decide

/-- C4 (amended): the per-field merge policy is fixed and
stage-independent — replace for the stage marker, sub-queries, retrieved
chunks, draft/final report, feedback and iteration counter; append for
search results and scraped pages; append for the error log (which may
therefore contain duplicates); append-deduplicated for stored chunk ids,
which stay duplicate-free after any sequence of updates. -/
theorem c4_merge_policy (q : String) (s : ResearchState) (u : StateUpdate)
    (us : List StateUpdate) :
    (∀ x, u.currentNode = some x → (applyUpdate s u).currentNode = x) ∧
    (∀ x, u.subQueries = some x → (applyUpdate s u).subQueries = x) ∧
    (∀ x, u.retrievedChunks = some x → (applyUpdate s u).retrievedChunks = x) ∧
    (∀ x, u.draftReport = some x → (applyUpdate s u).draftReport = x) ∧
    (∀ x, u.finalReport = some x → (applyUpdate s u).finalReport = x) ∧
    (∀ x, u.humanFeedback = some x → (applyUpdate s u).humanFeedback = x) ∧
    (∀ x, u.iterationCount = some x → (applyUpdate s u).iterationCount = x) ∧
    (∀ x, u.searchResults = some x →
      (applyUpdate s u).searchResults = s.searchResults ++ x) ∧
    (∀ x, u.scrapedContent = some x →
      (applyUpdate s u).scrapedContent = s.scrapedContent ++ x) ∧
    (∀ x, u.storedChunkIds = some x →
      (applyUpdate s u).storedChunkIds = dedupFirst (s.storedChunkIds ++ x)
        ∧ ((applyUpdate s u).storedChunkIds).Nodup) ∧
    (∀ x, u.errors = some x → (applyUpdate s u).errors = s.errors ++ x) ∧
    ((us.foldl applyUpdate (initialState q)).storedChunkIds).Nodup := by
  refine ⟨?_, ?_, ?_, ?_, ?_, ?_, ?_, ?_, ?_, ?_, ?_, ?_⟩
  all_goals first
    | (exact foldl_applyUpdate_nodup us (initialState q) List.nodup_nil)
    | (intro x hx; simp [applyUpdate, hx, dedupFirst_nodup])

/-- Witness for C4 (amended) at a concrete update. -/
theorem c4_merge_policy_witness :
    (applyUpdate (initialState "q") { currentNode := some .complete }).currentNode
      = .complete :=
  (c4_merge_policy "q" (initialState "q") { currentNode := some .complete } []).1 _ rfl

theorem citeFoldUrl_ids (acc : List Citation) (u t : String)
    (hid : acc.map (fun c => c.id) = List.range' 1 acc.length)
    (hurl : (acc.map (fun c => c.url)).Nodup) :
    (citeFoldUrl acc u t).map (fun c => c.id)
        = List.range' 1 (citeFoldUrl acc u t).length ∧
    ((citeFoldUrl acc u t).map (fun c => c.url)).Nodup := by
  unfold citeFoldUrl
  by_cases hu : u ∈ acc.map (fun c => c.url)
  · simp [hu, hid, hurl]
  · refine ⟨?_, ?_⟩
    · simp only [hu, if_false, List.map_append, List.length_append, hid]
      simp [List.range'_concat, Nat.add_comm]
    · simp [hu, List.nodup_append, hurl]

theorem citeFoldUrl_mem (acc : List Citation) (u t v : String) :
    v ∈ (citeFoldUrl acc u t).map (fun c => c.url)
      ↔ v ∈ acc.map (fun c => c.url) ∨ v = u := by
  unfold citeFoldUrl
  by_cases hu : u ∈ acc.map (fun c => c.url)
  · simp only [hu, if_true]
    constructor
    · exact fun h => Or.inl h
    · rintro (h | rfl)
      · exact h
      · exact hu
  · simp [hu]

theorem citeList_ids (key title : α → String) (l : List α) :
    ∀ acc : List Citation,
      acc.map (fun c => c.id) = List.range' 1 acc.length →
      ((acc.map (fun c => c.url)).Nodup) →
      ((citeList key title acc l).map (fun c => c.id)
          = List.range' 1 (citeList key title acc l).length ∧
        ((citeList key title acc l).map (fun c => c.url)).Nodup) := by
  induction l with
  | nil => intro acc hid hurl; exact ⟨hid, hurl⟩
  | cons x xs ih =>
    intro acc hid hurl
    have h := citeFoldUrl_ids acc (key x) (title x) hid hurl
    simpa [citeList, List.foldl_cons] using ih _ h.1 h.2

theorem citeList_cons (key title : α → String) (acc : List Citation) (x : α)
    (xs : List α) :
    citeList key title acc (x :: xs)
      = citeList key title (citeFoldUrl acc (key x) (title x)) xs :=
  rfl

theorem citeList_mem (key title : α → String) (l : List α) :
    ∀ (acc : List Citation) (v : String),
      v ∈ (citeList key title acc l).map (fun c => c.url)
        ↔ v ∈ acc.map (fun c => c.url) ∨ v ∈ l.map key := by
  induction l with
  | nil => intro acc v; simp [citeList]
  | cons x xs ih =>
    intro acc v
    have h1 := ih (citeFoldUrl acc (key x) (title x)) v
    have h2 := citeFoldUrl_mem acc (key x) (title x) v
    rw [citeList_cons, h1, h2]
    simp only [List.map_cons, List.mem_cons]
    tauto

theorem citeList_extends (key title : α → String) (l : List α) :
    ∀ acc : List Citation,
      ∃ ext, citeList key title acc l = acc ++ ext
        ∧ ∀ c ∈ ext, c.url ∈ l.map key := by
  induction l with
  | nil => intro acc; exact ⟨[], by simp [citeList]⟩
  | cons x xs ih =>
    intro acc
    obtain ⟨ext, hext, hmem⟩ := ih (citeFoldUrl acc (key x) (title x))
    rw [citeList_cons]
    by_cases hu : key x ∈ acc.map (fun c => c.url)
    · have hstep : citeFoldUrl acc (key x) (title x) = acc := by
        simp [citeFoldUrl, hu]
      rw [hstep] at hext ⊢
      refine ⟨ext, hext, ?_⟩
      intro c hc
      simp only [List.map_cons, List.mem_cons]
      exact Or.inr (hmem c hc)
    · have hstep : citeFoldUrl acc (key x) (title x)
          = acc ++ [{ id := acc.length + 1, url := key x, title := title x }] := by
        simp [citeFoldUrl, hu]
      rw [hstep] at hext ⊢
      refine ⟨{ id := acc.length + 1, url := key x, title := title x } :: ext, ?_, ?_⟩
      · rw [hext, List.append_assoc]
        rfl
      · intro c hc
        simp only [List.mem_cons] at hc
        rcases hc with rfl | hc
        · simp
        · simp only [List.map_cons, List.mem_cons]
          exact Or.inr (hmem c hc)

/-- C5: the citation list of one synthesis pass carries the contiguous ids
`1..K` with no gaps or repeats, one id per distinct source url drawn from
the retrieved chunks and then the first 20 raw search results; the
chunk-derived citations come first and the remaining ids go to uncited
urls among those first 20 search results. -/
theorem c5_citation_map (s : ResearchState) :
    ((buildCitationMap s).map (fun c => c.id)
        = List.range' 1 (buildCitationMap s).length) ∧
    ((buildCitationMap s).map (fun c => c.url)).Nodup ∧
    (∀ v, v ∈ (buildCitationMap s).map (fun c => c.url) ↔
      v ∈ s.retrievedChunks.map (fun c => c.metadata.url)
        ∨ v ∈ (s.searchResults.take 20).map (fun r => r.url)) ∧
    (∃ ext, buildCitationMap s
        = citeList (fun c => c.metadata.url) (fun c => c.metadata.title) []
            s.retrievedChunks ++ ext
      ∧ ∀ c ∈ ext, c.url ∈ (s.searchResults.take 20).map (fun r => r.url)) := by
  have base := citeList_ids (fun c : RetrievedChunk => c.metadata.url)
    (fun c => c.metadata.title) s.retrievedChunks [] (by simp) (by simp)
  have final := citeList_ids (fun r : SearchResult => r.url) (fun r => r.title)
    (s.searchResults.take 20) _ base.1 base.2
  refine ⟨final.1, final.2, ?_, ?_⟩
  · intro v
    rw [buildCitationMap, citeList_mem, citeList_mem]
    simp
  · exact citeList_extends _ _ _ _

/-- Witness for C5 at a concrete session: one chunk url then one search
result url, numbered 1 and 2. -/
theorem c5_citation_map_witness :
    (buildCitationMap c5State).map (fun c => c.id) = [1, 2] :=
  ((c5_citation_map c5State).1).trans (by decide)

theorem dedupStep_fold (l : List RetrievedChunk) :
    ∀ acc : List String × List RetrievedChunk,
      acc.1 = acc.2.map dedupKey →
      acc.1.Nodup →
      (∀ c ∈ acc.2, 50 < c.content.length) →
      ((l.foldl dedupStep acc).1 = ((l.foldl dedupStep acc).2).map dedupKey ∧
        ((l.foldl dedupStep acc).1).Nodup ∧
        ∀ c ∈ (l.foldl dedupStep acc).2, 50 < c.content.length) := by
  induction l with
  | nil => intro acc h1 h2 h3; exact ⟨h1, h2, h3⟩
  | cons x xs ih =>
    intro acc h1 h2 h3
    simp only [List.foldl_cons]
    by_cases hx : dedupKey x ∉ acc.1 ∧ 50 < x.content.length
    · have hs : dedupStep acc x = (acc.1 ++ [dedupKey x], acc.2 ++ [x]) := by
        simp [dedupStep, hx]
      rw [hs]
      apply ih
      · simp [h1]
      · rw [h1] at h2 hx ⊢
        simp [List.nodup_append, h2, hx.1]
      · intro c hc
        rcases List.mem_append.mp hc with hc | hc
        · exact h3 c hc
        · simp only [List.mem_singleton] at hc
          subst hc
          exact hx.2
    · have hs : dedupStep acc x = acc := by
        simp only [dedupStep, if_neg hx]
      rw [hs]
      exact ih acc h1 h2 h3

theorem dedupChunks_props (allResults : List (List RetrievedChunk)) :
    ((dedupChunks allResults).map dedupKey).Nodup ∧
      ∀ c ∈ dedupChunks allResults, 50 < c.content.length := by
  have h := dedupStep_fold allResults.flatten ([], []) (by simp) (by simp) (by simp)
  refine ⟨?_, h.2.2⟩
  have := h.2.1
  rwa [h.1] at this

/-- C6: the retrieved-chunk list the retrieval node writes (and which
replaces the previous one under the replace policy) has length at most 20,
is sorted by non-increasing relevance score, contains no two entries with
the same trimmed first-100-character prefix, and contains no chunk of 50
characters or fewer. -/
theorem c6_retrieval_output (s : ResearchState) (store : VectorStore) :
    ((retrievalNode s store).retrievedChunks
        = some (retrievalSelect ((retrievalQueries s).map
            (fun q => retrieveFromVectorDB store q TOP_K_PER_QUERY)))) ∧
    ((applyUpdate s (retrievalNode s store)).retrievedChunks
        = retrievalSelect ((retrievalQueries s).map
            (fun q => retrieveFromVectorDB store q TOP_K_PER_QUERY))) ∧
    ∀ allResults : List (List RetrievedChunk),
      (retrievalSelect allResults).length ≤ 20 ∧
      List.Pairwise (fun a b : RetrievedChunk =>
        b.relevanceScore ≤ a.relevanceScore) (retrievalSelect allResults) ∧
      ((retrievalSelect allResults).map dedupKey).Nodup ∧
      ∀ c ∈ retrievalSelect allResults, 50 < c.content.length := by
  refine ⟨rfl, by simp [applyUpdate, retrievalNode], ?_⟩
  intro allResults
  have hsorted := List.sorted_insertionSort chunkGE (dedupChunks allResults)
  have hperm := List.perm_insertionSort chunkGE (dedupChunks allResults)
  have hprops := dedupChunks_props allResults
  refine ⟨?_, ?_, ?_, ?_⟩
  · rw [retrievalSelect, List.length_take]
    exact min_le_left _ _
  · exact List.Pairwise.sublist (List.take_sublist _ _) hsorted
  · have hnodup : ((List.insertionSort chunkGE (dedupChunks allResults)).map dedupKey).Nodup :=
      ((hperm.map dedupKey).nodup_iff).mpr hprops.1
    rw [retrievalSelect]
    exact List.Nodup.sublist (List.Sublist.map dedupKey (List.take_sublist _ _)) hnodup
  · intro c hc
    have h1 : c ∈ List.insertionSort chunkGE (dedupChunks allResults) :=
      (List.take_sublist _ _).subset hc
    exact hprops.2 c (hperm.subset h1)

/-- Witness for C6 at a concrete result set. -/
theorem c6_retrieval_output_witness :
    (retrievalSelect [[exChunk]]).length ≤ 20 :=
  ((c6_retrieval_output (initialState "q") emptyStore).2.2 [[exChunk]]).1

/-- C10: the vector retrieval requests `min(topK, count)` hits (at most
`topK` and at most the stored-document count), returns `[]` for an empty
store, and every returned chunk is longer than 20 characters and carries
`relevanceScore = max(0, 1 - distance/2)` for the distance of a hit
(defaulting to 1 when the store omits it). -/
theorem c10_retrieve_props (store : VectorStore) (q : String) (k : Nat) :
    (store.count = 0 → retrieveFromVectorDB store q k = []) ∧
    (min k store.count ≤ k ∧ min k store.count ≤ store.count) ∧
    (∀ c ∈ retrieveFromVectorDB store q k,
      20 < c.content.length ∧
      ∃ h ∈ (store.query q (min k store.count)).getD [],
        c.content = h.doc.getD "" ∧ c.metadata = h.metadata ∧
        c.relevanceScore = max 0 (1 - h.distance.getD 1 / 2)) := by
  refine ⟨fun h0 => by simp [retrieveFromVectorDB, h0], ⟨min_le_left _ _, min_le_right _ _⟩, ?_⟩
  intro c hc
  unfold retrieveFromVectorDB at hc
  by_cases h0 : store.count = 0
  · simp [h0] at hc
  · simp only [h0, if_false] at hc
    cases hq : store.query q (min k store.count) with
    | none => rw [hq] at hc; simp at hc
    | some hits =>
      rw [hq] at hc
      simp only [List.mem_filter, List.mem_map, decide_eq_true_eq] at hc
      obtain ⟨⟨h, hh, rfl⟩, hlen⟩ := hc
      exact ⟨hlen, h, by simp [hq, hh], rfl, rfl, rfl⟩

/-- Witness for C10 at the empty store. -/
theorem c10_retrieve_props_witness :
    retrieveFromVectorDB emptyStore "anything" 8 = [] :=
  (c10_retrieve_props emptyStore "anything" 8).1 rfl

theorem searchStep_error (oracle : String → Except String (List SearchResult))
    (acc : List String × List SearchResult) (sq : SubQuery) (e : String)
    (h : oracle sq.query = .error e) : searchStep oracle acc sq = acc := by
  simp [searchStep, h]

theorem searchStep_ok (oracle : String → Except String (List SearchResult))
    (acc : List String × List SearchResult) (sq : SubQuery) (rs : List SearchResult)
    (h : oracle sq.query = .ok rs) :
    searchStep oracle acc sq
      = (acc.1 ++ (rs.filter (fun r => decide (r.url ∉ acc.1))).map (fun r => r.url),
          acc.2 ++ rs.filter (fun r => decide (r.url ∉ acc.1))) := by
  simp [searchStep, h]

theorem searchStep_fold_sound (oracle : String → Except String (List SearchResult))
    (l : List SubQuery) :
    ∀ acc : List String × List SearchResult,
      ∀ r ∈ (l.foldl (searchStep oracle) acc).2,
        r ∈ acc.2 ∨ ∃ sq ∈ l, ∃ rs, oracle sq.query = .ok rs ∧ r ∈ rs := by
  induction l with
  | nil => intro acc r hr; exact Or.inl hr
  | cons x xs ih =>
    intro acc r hr
    rw [List.foldl_cons] at hr
    rcases ih (searchStep oracle acc x) r hr with h | ⟨sq, hsq, rs, hok, hrs⟩
    · cases hx : oracle x.query with
      | error e =>
        rw [searchStep_error oracle acc x e hx] at h
        exact Or.inl h
      | ok results =>
        rw [searchStep_ok oracle acc x results hx] at h
        rcases List.mem_append.mp h with h | h
        · exact Or.inl h
        · exact Or.inr ⟨x, List.mem_cons_self x xs, results, hx, (List.mem_filter.mp h).1⟩
    · exact Or.inr ⟨sq, List.mem_cons_of_mem _ hsq, rs, hok, hrs⟩

theorem scrapeLoop_eq_map_aux (fetch_ : String → ScrapedContent) :
    ∀ n (urls : List String), urls.length ≤ n →
      scrapeLoop fetch_ urls = urls.map fetch_ := by
  intro n
  induction n with
  | zero =>
    intro urls h
    have hnil : urls = [] := List.eq_nil_of_length_eq_zero (Nat.le_zero.mp h)
    subst hnil
    simp [scrapeLoop]
  | succ n ih =>
    intro urls h
    match urls with
    | [] => simp [scrapeLoop]
    | u :: us =>
      have hlen : ((u :: us).drop 3).length ≤ n := by
        simp only [List.length_drop, List.length_cons]
        simp only [List.length_cons] at h
        omega
      rw [scrapeLoop, ih ((u :: us).drop 3) hlen]
      conv_rhs => rw [← List.take_append_drop 3 (u :: us)]
      rw [List.map_append]

theorem scrapeLoop_eq_map (fetch_ : String → ScrapedContent) (urls : List String) :
    scrapeLoop fetch_ urls = urls.map fetch_ :=
  scrapeLoop_eq_map_aux fetch_ urls.length urls Nat.le.refl

/-- C8 (code bug evidence): a stage-level failure sets the current-stage
marker to `error`, but the graph's edge out of the failing stage is
unconditional (`routeAfterError` is never wired in), so the next stage
still executes — here the scraper runs after the search stage failed,
producing its own stage-level error. -/
theorem c8_error_does_not_stop_pipeline :
    (searchNode (initialState "q") (fun _ => .error "tavily down")).currentNode
        = some .error ∧
    linearSuccessor .search = some .scraper ∧
    (scraperNode (applyUpdate (initialState "q")
        (searchNode (initialState "q") (fun _ => .error "tavily down"))) fetchFail).errors
        = some ["No search results to scrape"] ∧
    (scraperNode (applyUpdate (initialState "q")
        (searchNode (initialState "q") (fun _ => .error "tavily down"))) fetchFail).currentNode
        = some .error := by
  decide

/-- C9 counterexample: the search call for `sqA` fails, yet the node's
update carries no `errors` entry at all — the failure is not logged into
the session's error list (only to the console); the other sub-query is
still processed and its result kept. -/
theorem c9_item_failure_not_logged :
    (searchNode c9State c9Oracle).errors = none ∧
    (searchNode c9State c9Oracle).searchResults = some [resB] ∧
    (searchNode c9State c9Oracle).currentNode = some .scraping ∧
    (applyUpdate c9State (searchNode c9State c9Oracle)).errors = [] := by
  decide

/-- C9 (amended): a per-item failure (one failed search call, one failed
scrape) is caught, the failed item is excluded from the stage output, and
the remaining items are still processed — but no entry is added to the
session's error list for it (the failure is only written to the console). -/
theorem c9_per_item_failures_tolerated (s : ResearchState)
    (oracle : String → Except String (List SearchResult))
    (fetch_ : String → ScrapedContent) (urls : List String)
    (h : s.subQueries ≠ []) :
    (searchNode s oracle).errors = none ∧
    (searchNode s oracle).currentNode = some .scraping ∧
    (∀ r ∈ ((searchNode s oracle).searchResults).getD [],
      ∃ sq ∈ s.subQueries, ∃ rs, oracle sq.query = .ok rs ∧ r ∈ rs) ∧
    (scrapeUrls fetch_ urls = (urls.map fetch_).filter
      (fun r => decide (r.error = none ∧ 50 < r.wordCount))) ∧
    (∀ c ∈ scrapeUrls fetch_ urls, c.error = none ∧ 50 < c.wordCount) := by
  refine ⟨by simp [searchNode, h], by simp [searchNode, h], ?_, ?_, ?_⟩
  · intro r hr
    simp only [searchNode, if_neg h] at hr
    rcases searchStep_fold_sound oracle _ _ r hr with hfalse | ⟨sq, hsq, rs, hok, hrs⟩
    · simp at hfalse
    · exact ⟨sq, (List.perm_insertionSort subQueryLE s.subQueries).subset hsq, rs, hok, hrs⟩
  · rw [scrapeUrls, scrapeLoop_eq_map]
  · intro c hc
    rw [scrapeUrls] at hc
    have := (List.mem_filter.mp hc).2
    simpa using this

/-- Witness for C9 (amended) at the concrete failing session. -/
theorem c9_per_item_failures_tolerated_witness :
    (searchNode c9State c9Oracle).errors = none :=
  (c9_per_item_failures_tolerated c9State c9Oracle fetchFail [] (by decide)).1

theorem chunkTextAux_count (words : List String)
    (hf : ∀ i, i % 800 = 0 → i < words.length →
      50 < (jsTrim (joinSpace ((words.drop i).take CHUNK_SIZE))).length) :
    ∀ n i, words.length - i ≤ n → i % 800 = 0 → 200 + i < words.length →
      (chunkTextAux words i).length = (words.length - i + 599) / 800 := by
  intro n
  induction n with
  | zero => intro i hn hmod hlt; omega
  | succ n ih =>
    intro i hn hmod hlt
    have hi : i < words.length := by omega
    have hchunk := hf i hmod hi
    rw [chunkTextAux, dif_pos hi]
    simp only [hchunk, if_true, List.length_cons]
    by_cases hend : words.length ≤ i + CHUNK_SIZE
    · rw [dif_pos hend]
      simp only [List.length_nil]
      simp only [CHUNK_SIZE] at hend
      omega
    · rw [dif_neg hend]
      simp only [CHUNK_SIZE, CHUNK_OVERLAP] at hend ⊢
      have hrec := ih (i + 800) (by omega) (by omega) (by omega)
      rw [hrec]
      omega

theorem claimedWindowCount_eq (W : Nat) (h : 200 < W) :
    claimedWindowCount W = (((W - 200 + 799) / 800 : Nat) : ℤ) := by
  have hd : ((W : ℚ) - 200) = ((W - 200 : Nat) : ℚ) := by
    push_cast [Nat.cast_sub (by omega : 200 ≤ W)]
    ring
  rw [claimedWindowCount, hd, Int.ceil_eq_iff]
  set d := W - 200 with hdd
  set k := (d + 799) / 800 with hkk
  have h1 : 800 * k ≤ d + 799 := by omega
  have h2 : d + 799 < 800 * k + 800 := by omega
  constructor
  · rw [lt_div_iff₀ (by norm_num : (0:ℚ) < 800)]
    push_cast
    have h1q : 800 * (k:ℚ) ≤ (d:ℚ) + 799 := by exact_mod_cast h1
    linarith
  · rw [div_le_iff₀ (by norm_num : (0:ℚ) < 800)]
    push_cast
    have h2q : (d:ℚ) ≤ 800 * (k:ℚ) := by exact_mod_cast (by omega : d ≤ 800 * k)
    linarith

/-- C7 counterexample: on one 60-character word the code emits one window
although the formula `ceil((W - O)/(S - O))` at `W = 1` is `0`; and on one
5-character word (a non-empty remainder) the code emits no window at all
because of the 50-character filter, although the boundary proviso would
emit it. The window count is therefore not the claimed function of `W`. -/
theorem c7_formula_counterexample :
    chunkText [word60] = [word60] ∧
    ((chunkText [word60]).length : ℤ) ≠ claimedWindowCount ([word60].length) ∧
    chunkText ["hello"] = [] ∧
    claimedWindowCount 1 = 0 := by
  have h1 : chunkText [word60] = [word60] := by
    rw [chunkText, chunkTextAux]
    norm_num [CHUNK_SIZE]
    decide
  have h2 : claimedWindowCount 1 = 0 := by
    rw [claimedWindowCount, Int.ceil_eq_iff]
    norm_num
  have h3 : chunkText ["hello"] = [] := by
    rw [chunkText, chunkTextAux]
    norm_num [CHUNK_SIZE]
    decide
  refine ⟨h1, ?_, h3, h2⟩
  rw [h1]
  show (1 : ℤ) ≠ claimedWindowCount 1
  rw [h2]
  decide

/-- C7 (amended): for a page of more than `O = 200` words in which every
window the loop visits (start indices are the multiples of
`S - O = 800`) joins and trims to more than 50 characters, the chunking
function produces exactly `ceil((W - O) / (S - O))` windows. -/
theorem c7_window_count (words : List String)
    (hW : 200 < words.length)
    (hf : ∀ i, i % 800 = 0 → i < words.length →
      50 < (jsTrim (joinSpace ((words.drop i).take CHUNK_SIZE))).length) :
    ((chunkText words).length : ℤ) = claimedWindowCount words.length := by
  rw [claimedWindowCount_eq words.length hW, chunkText,
    chunkTextAux_count words hf words.length 0 (by omega) (by omega) (by omega)]
  have : words.length - 0 + 599 = words.length - 200 + 799 := by omega
  rw [this]

set_option maxRecDepth 40000 in
/-- Witness for C7 (amended) on 201 one-character words: one window, and
the formula also predicts one. -/
theorem c7_window_count_witness :
    ((chunkText words201).length : ℤ) = claimedWindowCount words201.length :=
  c7_window_count words201 (by decide)
    (by
      intro i hmod hlt
      have hlen : words201.length = 201 := by decide
      have hi : i = 0 := by omega
      subst hi
      decide)

end MindSearch
